import Mathlib

/-!
Shallow embedding of the alert-ingestion and multi-tenant delivery core of
the GlobalEAS Discord posting bot (src/Main.py), together with theorems
settling the specification claims about it.

Identifiers, file contents and rendered text are modelled as lists of
characters (Python strings are sequences of code points).  The in-memory
set of delivered identifiers (`posted_alert_identifiers`) is a `Finset`.
Network and chat-platform effects are passed in as explicit outcome
parameters, so every definition is executable.
-/

namespace EASBot

/-- Alert identifiers, file contents and message text: Python strings as
character lists. -/
abbrev AlertId := List Char

/-- The fields of one feed alert object that the ingestion core reads.
Absent JSON fields are `none` (Python `dict.get` returns `None`).
Mirrors the fields used in src/Main.py lines 565-596. -/
structure Alert where
  hash : Option AlertId
  id : Option Int
  startTimeEpoch : Option Int
  translation : Option AlertId
  audioUrl : Option (List Char)
  deriving Repr, DecidableEq

/-- Python string interpolation of an optional integer field: `None` when
absent, decimal rendering when present (as in the f-string on line 569). -/
def pyOptInt : Option Int → List Char
  | none => "None".toList
  | some n => (toString n).toList

/-- The computed identifier of an alert, src/Main.py lines 567-569:
`alert_data.get("hash")` followed by the falsiness test `if not
alert_identifier`, so the id-startTimeEpoch fallback is taken both when
`hash` is absent and when it is present but the empty string. -/
def alertIdentifier (a : Alert) : AlertId :=
  match a.hash with
  | some h => if h.isEmpty then pyOptInt a.id ++ '-' :: pyOptInt a.startTimeEpoch else h
  | none => pyOptInt a.id ++ '-' :: pyOptInt a.startTimeEpoch

/-- The dedup filter of the cycle, src/Main.py lines 564-576: walk the
fetched list in order, compute each identifier, and keep the
(identifier, alert) pair exactly when the identifier is not already in
the delivered set. -/
def filterNew (posted : Finset AlertId) (fetched : List Alert) : List (AlertId × Alert) :=
  (fetched.map (fun a => (alertIdentifier a, a))).filter (fun p => p.1 ∉ posted)

/-- Outcome of one guild iteration of the fan-out loop, src/Main.py lines
644-707: the guild can be skipped (missing config, missing alert channel,
unresolvable channel), the send can succeed, or the send can raise
(Forbidden / HTTPException / other), which is caught and logged. -/
inductive GuildOutcome where
  | skipped
  | success
  | failure
  deriving Repr, DecidableEq

/-- The `posted_to_any_guild` flag after the fan-out loop, src/Main.py
lines 640 and 692: it starts false and is set exactly by a successful
send. -/
def postedToAnyGuild (outs : List GuildOutcome) : Bool :=
  outs.foldl (fun acc o => acc || (o == GuildOutcome.success)) false

/-- State and trace accumulated by one cycle of `check_globaleas_alerts`:
the in-memory delivered set, the durable file content at the final path
(`none` when the file does not exist), the snapshots handed to
`save_posted_ids` (one per committed alert, in order), and the
identifiers that went through fan-out processing, in order. -/
structure CycleResult where
  posted : Finset AlertId
  fileMain : Option (List Char)
  saves : List (Finset AlertId)
  fanOuts : List AlertId
  deriving DecidableEq

/-- File content produced by `save_posted_ids`, src/Main.py lines 147-148:
each identifier of the sorted set followed by a newline. -/
def saveContent (s : Finset AlertId) : List Char :=
  ((s.sort (· ≤ ·)).map (fun i => i ++ ['\n'])).flatten

/-- Processing of one new alert in the cycle, src/Main.py lines 586-721:
fan-out to the guilds produces `outs`; when at least one send succeeded
the identifier is added to the in-memory set and `save_posted_ids` is
called with the enlarged set (`io` tells whether that write succeeded —
an IOError is caught inside `save_posted_ids` and leaves the durable
file unchanged); with zero successes nothing but the fan-out trace
changes. -/
def processAlert (p : AlertId × Alert) (outs : List GuildOutcome) (io : Bool)
    (acc : CycleResult) : CycleResult :=
  if postedToAnyGuild outs then
    let posted' := insert p.1 acc.posted
    { posted := posted'
      fileMain := if io then some (saveContent posted') else acc.fileMain
      saves := acc.saves ++ [posted']
      fanOuts := acc.fanOuts ++ [p.1] }
  else
    { acc with fanOuts := acc.fanOuts ++ [p.1] }

/-- One cycle of `check_globaleas_alerts`, src/Main.py lines 548-721.
`configured` is the `if not guild_configs: return` guard (line 553);
`fetched` is what `fetch_active_globaleas_alerts` returned; `outs i` and
`io i` are the guild fan-out outcomes and the persistence-write outcome
for the i-th element of the filtered new-alert list.  The new alerts are
exactly `filterNew posted fetched` and are processed in feed order, one
alert fully finished (including its persistence decision) before the
next. -/
def runCycle (configured : Bool) (posted : Finset AlertId) (fileMain : Option (List Char))
    (fetched : List Alert) (outs : Nat → List GuildOutcome) (io : Nat → Bool) : CycleResult :=
  if configured then
    ((filterNew posted fetched).enum).foldl
      (fun acc ip => processAlert ip.2 (outs ip.1) (io ip.1) acc)
      ⟨posted, fileMain, [], []⟩
  else
    ⟨posted, fileMain, [], []⟩

/-- The two files `save_posted_ids` touches: the final persistence path
and its `.tmp` sibling; `none` means the path does not exist. -/
structure FS where
  main : Option (List Char)
  temp : Option (List Char)
  deriving DecidableEq

/-- The observable filesystem steps of `save_posted_ids`, src/Main.py
lines 144-150: writing content to the temporary file, then
`os.replace`-ing it over the final path. -/
inductive SaveFsStep where
  | writeTemp (c : List Char)
  | rename
  deriving DecidableEq

/-- Effect of one step on the two files: `writeTemp` only touches the
temporary file; `rename` atomically moves the temporary file over the
final path. -/
def stepFS (fs : FS) : SaveFsStep → FS
  | SaveFsStep.writeTemp c => { fs with temp := some c }
  | SaveFsStep.rename => { main := fs.temp, temp := none }

/-- Run a sequence of filesystem steps. -/
def runFS (fs : FS) (l : List SaveFsStep) : FS :=
  l.foldl stepFS fs

/-- The step sequence of a full successful `save_posted_ids` call:
write the sorted newline-terminated identifiers to the temporary file,
then rename it over the final path. -/
def saveScript (s : Finset AlertId) : List SaveFsStep :=
  [SaveFsStep.writeTemp (saveContent s), SaveFsStep.rename]

/-- CPython `str.strip()` whitespace on the ASCII range: space, tab,
newline, carriage return, vertical tab, form feed. -/
def isPyWs (c : Char) : Bool :=
  c == ' ' || c == '\t' || c == '\n' || c == '\r' || c == '\x0b' || c == '\x0c'

/-- Python `line.strip()`: drop leading and trailing whitespace. -/
def stripWs (l : List Char) : List Char :=
  ((l.dropWhile isPyWs).reverse.dropWhile isPyWs).reverse

/-- Split file content at newline characters.  Iterating a Python file
object yields the chunks between newlines (each with its trailing
newline, which `strip` removes); this is the same decomposition with the
separators dropped, plus a final chunk after the last newline. -/
def splitNL : List Char → List (List Char)
  | [] => [[]]
  | c :: rest =>
    if c = '\n' then [] :: splitNL rest
    else
      match splitNL rest with
      | [] => [[c]]
      | r :: rs => (c :: r) :: rs

/-- `load_posted_ids` on given file content, src/Main.py lines 116-123:
per line, strip surrounding whitespace and add the result to the set
when it is non-empty. -/
def loadContent (c : List Char) : Finset AlertId :=
  (((splitNL c).map stripWs).filter (fun l => l ≠ [])).toFinset

/-- Outcome of the HTTP GET inside `download_audio`: a body, or one of
the caught failure classes (ClientResponseError, TimeoutError, any other
exception), src/Main.py lines 289-302. -/
inductive FetchOutcome where
  | ok (body : List Char)
  | httpError
  | timeout
  | otherExn
  deriving Repr, DecidableEq

/-- Python `str.startswith` on character lists: does the first list
begin with the second? -/
def startsWithChars : List Char → List Char → Bool
  | _, [] => true
  | [], _ :: _ => false
  | c :: cs, d :: ds => c == d && startsWithChars cs ds

/-- `download_audio`, src/Main.py lines 281-303: an absent or falsy URL
or one not starting with http:// or https:// is rejected before any
request; an empty downloaded body yields `none`; every caught fetch
failure yields `none`. -/
def downloadAudio (url : Option (List Char)) (fetch : FetchOutcome) : Option (List Char) :=
  match url with
  | none => none
  | some u =>
    if u.isEmpty
        || !(startsWithChars u "http://".toList || startsWithChars u "https://".toList) then
      none
    else
      match fetch with
      | FetchOutcome.ok body => if body.isEmpty then none else some body
      | FetchOutcome.httpError => none
      | FetchOutcome.timeout => none
      | FetchOutcome.otherExn => none

/-- The ellipsis marker appended to truncated descriptions (three ASCII
dots, src/Main.py line 611). -/
def ellipsisMarker : List Char := ['.', '.', '.']

/-- The description of the rendered embed, src/Main.py line 611:
the first 2000 characters of the message, with the ellipsis marker
appended exactly when the message is longer than 2000 characters. -/
def renderDescription (msg : List Char) : List Char :=
  msg.take 2000 ++ (if 2000 < msg.length then ellipsisMarker else [])

/-- State of the background task loop as observed by the `/fetch`
command: whether the `tasks.loop` task object is running, whether it is
being cancelled, and whether a cycle body is currently executing
(suspended at one of its awaits).  While a cycle body runs, the loop
task is running and not done, so `loopRunning` is true. -/
structure LoopState where
  loopRunning : Bool
  beingCancelled : Bool
  cycleInFlight : Bool
  deriving Repr, DecidableEq

/-- The guard of the `/fetch` command, src/Main.py line 369:
`check_globaleas_alerts.is_running() and not
check_globaleas_alerts.is_being_cancelled()`.  It reads only the task
object's liveness, never whether a cycle body is in flight. -/
def fetchGuard (s : LoopState) : Bool :=
  s.loopRunning && !s.beingCancelled

/-- What `/fetch` does with the trigger, src/Main.py lines 369-381:
when the guard passes it immediately awaits the cycle function
`check_globaleas_alerts()` (the same function the scheduler runs);
otherwise it replies that the task is not running. -/
inductive ManualOutcome where
  | ranCycle
  | rejectedNotRunning
  deriving Repr, DecidableEq

/-- Dispatch of the manual trigger on the loop state. -/
def manualFetch (s : LoopState) : ManualOutcome :=
  if fetchGuard s then ManualOutcome.ranCycle else ManualOutcome.rejectedNotRunning

/-- An alert whose feed object carries a present but empty hash field. -/
def emptyHashAlert : Alert :=
  { hash := some [], id := some 1, startTimeEpoch := some 2,
    translation := none, audioUrl := none }

/-- A hashless alert used to instantiate general theorems. -/
def sampleAlert : Alert :=
  { hash := none, id := some 1, startTimeEpoch := some 2,
    translation := none, audioUrl := none }

/-! ### Helper lemmas -/

/-- The dedup step is the list filter on the identifier-absence predicate,
tagged with the computed identifiers. -/
theorem filterNew_eq (posted : Finset AlertId) (fetched : List Alert) :
    filterNew posted fetched
      = (fetched.filter (fun a => alertIdentifier a ∉ posted)).map
          (fun a => (alertIdentifier a, a)) := by
  unfold filterNew
  rw [List.filter_map]
  rfl

/-- A fan-out fold in which no alert had a successful delivery only
extends the fan-out trace: delivered set, durable file and save trace are
untouched. -/
theorem foldl_process_noSuccess (outs : Nat → List GuildOutcome) (io : Nat → Bool)
    (l : List (Nat × (AlertId × Alert))) (h : ∀ i, postedToAnyGuild (outs i) = false) :
    ∀ acc : CycleResult,
      l.foldl (fun acc ip => processAlert ip.2 (outs ip.1) (io ip.1) acc) acc
        = { acc with fanOuts := acc.fanOuts ++ l.map (fun ip => ip.2.1) } := by
  induction l with
  | nil => intro acc; simp
  | cons hd tl ih =>
    intro acc
    simp only [List.foldl_cons, List.map_cons]
    rw [show processAlert hd.2 (outs hd.1) (io hd.1) acc
        = { acc with fanOuts := acc.fanOuts ++ [hd.2.1] } by
      simp [processAlert, h hd.1]]
    rw [ih]
    simp

/-- Each alert committed by the fold contributes exactly one call to the
persistence writer. -/
theorem foldl_process_saves_len (outs : Nat → List GuildOutcome) (io : Nat → Bool)
    (l : List (Nat × (AlertId × Alert))) :
    ∀ acc : CycleResult,
      (l.foldl (fun acc ip => processAlert ip.2 (outs ip.1) (io ip.1) acc) acc).saves.length
        = acc.saves.length + (l.filter (fun ip => postedToAnyGuild (outs ip.1))).length := by
  induction l with
  | nil => intro acc; simp
  | cons hd tl ih =>
    intro acc
    by_cases hc : postedToAnyGuild (outs hd.1) = true
    · simp only [List.foldl_cons, List.filter_cons, hc, if_pos]
      rw [ih]
      simp [processAlert, hc]
      omega
    · simp only [List.foldl_cons, List.filter_cons, hc]
      rw [ih]
      simp [processAlert, hc]

/-- Every filtered alert goes through fan-out processing, in order,
whatever the delivery outcomes. -/
theorem foldl_process_fanOuts (outs : Nat → List GuildOutcome) (io : Nat → Bool)
    (l : List (Nat × (AlertId × Alert))) :
    ∀ acc : CycleResult,
      (l.foldl (fun acc ip => processAlert ip.2 (outs ip.1) (io ip.1) acc) acc).fanOuts
        = acc.fanOuts ++ l.map (fun ip => ip.2.1) := by
  induction l with
  | nil => intro acc; simp
  | cons hd tl ih =>
    intro acc
    simp only [List.foldl_cons, List.map_cons]
    by_cases hc : postedToAnyGuild (outs hd.1) = true
    · rw [ih]; simp [processAlert, hc]
    · rw [ih]; simp [processAlert, hc]

/-- Splitting at newlines undoes appending one newline-free chunk plus a
newline. -/
theorem splitNL_newline_append (id rest : List Char) (h : '\n' ∉ id) :
    splitNL (id ++ '\n' :: rest) = id :: splitNL rest := by
  induction id with
  | nil => simp [splitNL]
  | cons c cs ih =>
    have hc : ¬(c = '\n') := fun e => h (by simp [e])
    have hcs : '\n' ∉ cs := fun m => h (List.mem_cons_of_mem _ m)
    simp only [List.cons_append, splitNL, if_neg hc, List.append_eq]
    rw [ih hcs]

/-- Splitting at newlines recovers a list of newline-free chunks from the
newline-terminated concatenation, plus the empty chunk after the final
newline. -/
theorem splitNL_flatten_newlines (l : List (List Char)) (h : ∀ id ∈ l, '\n' ∉ id) :
    splitNL ((l.map (fun i => i ++ ['\n'])).flatten) = l ++ [[]] := by
  induction l with
  | nil => simp [splitNL]
  | cons hd tl ih =>
    simp only [List.map_cons, List.flatten_cons, List.append_assoc, List.singleton_append,
      List.cons_append, List.nil_append]
    rw [splitNL_newline_append hd _ (h hd (by simp))]
    rw [ih (fun id m => h id (List.mem_cons_of_mem _ m))]

/-- Loading the newline-terminated concatenation of newline-free lines
strips each line and keeps the non-blank results. -/
theorem loadContent_flatten (lines : List (List Char)) (h : ∀ l ∈ lines, '\n' ∉ l) :
    loadContent ((lines.map (fun l => l ++ ['\n'])).flatten)
      = ((lines.map stripWs).filter (fun l => l ≠ [])).toFinset := by
  unfold loadContent
  rw [splitNL_flatten_newlines lines h]
  have hnil : stripWs [] = [] := rfl
  simp [List.filter_append, hnil]

/-! ### Claim theorems -/

/-- Claim C2: the dedup step produces exactly the ordered sub-list of
fetched alerts whose computed identifier is not in the delivered set,
preserving feed order (it is the list filter on that predicate); on an
empty feed, or when every identifier is already in the set, it is empty
and the cycle performs no further action (state unchanged, no saves, no
fan-outs). -/
theorem dedup_filter_spec (posted : Finset AlertId) (fetched : List Alert)
    (fileMain : Option (List Char)) (outs : Nat → List GuildOutcome) (io : Nat → Bool) :
    (filterNew posted fetched).map Prod.snd
        = fetched.filter (fun a => alertIdentifier a ∉ posted)
      ∧ (∀ p ∈ filterNew posted fetched, p.1 = alertIdentifier p.2 ∧ p.1 ∉ posted)
      ∧ (fetched = [] → filterNew posted fetched = [])
      ∧ ((∀ a ∈ fetched, alertIdentifier a ∈ posted) → filterNew posted fetched = [])
      ∧ (filterNew posted fetched = [] →
          runCycle true posted fileMain fetched outs io = ⟨posted, fileMain, [], []⟩) := by
  refine ⟨?_, ?_, ?_, ?_, ?_⟩
  · rw [filterNew_eq, List.map_map]
    rw [show (Prod.snd ∘ fun a : Alert => (alertIdentifier a, a)) = id from rfl, List.map_id]
  · intro p hp
    unfold filterNew at hp
    rw [List.mem_filter] at hp
    obtain ⟨hmem, hdec⟩ := hp
    rw [List.mem_map] at hmem
    obtain ⟨a, _, rfl⟩ := hmem
    exact ⟨rfl, by simpa using hdec⟩
  · rintro rfl
    rfl
  · intro h
    rw [filterNew_eq]
    have hf : fetched.filter (fun a => alertIdentifier a ∉ posted) = [] := by
      rw [List.filter_eq_nil_iff]
      intro a ha
      simp [h a ha]
    rw [hf]
    rfl
  · intro h
    simp [runCycle, h]

/-- Witness for C2 at the empty feed and an empty delivered set. -/
theorem dedup_filter_spec_witness :
    filterNew ∅ ([] : List Alert) = []
      ∧ runCycle true ∅ none [] (fun _ => []) (fun _ => true) = ⟨∅, none, [], []⟩ := by
  refine ⟨?_, ?_⟩
  · exact (dedup_filter_spec ∅ [] none (fun _ => []) (fun _ => true)).2.2.1 rfl
  · exact (dedup_filter_spec ∅ [] none (fun _ => []) (fun _ => true)).2.2.2.2
      ((dedup_filter_spec ∅ [] none (fun _ => []) (fun _ => true)).2.2.1 rfl)

/-- Claim C3 counterexample: for an alert whose hash field is present but
the empty string, the code falls back to the id-startTimeEpoch composite
(Python falsiness test on line 568), so the computed identifier is not
the hash field's value, refuting that the fallback is used only when the
hash is absent. -/
theorem identifier_empty_hash_counterexample :
    emptyHashAlert.hash = some []
      ∧ alertIdentifier emptyHashAlert = "1-2".toList
      ∧ "1-2".toList ≠ ([] : AlertId) := by decide

/-- Claim C3 as amended: the computed identifier equals the feed hash
when that field is present and non-empty, and equals the composite of
the rendered id and start-time-epoch fields joined by a dash when the
hash is absent or empty. -/
theorem identifier_hash_fallback_spec (a : Alert) :
    (∀ h, a.hash = some h → h ≠ [] → alertIdentifier a = h)
      ∧ ((a.hash = none ∨ a.hash = some []) →
          alertIdentifier a = pyOptInt a.id ++ '-' :: pyOptInt a.startTimeEpoch) := by
  constructor
  · intro h hh hne
    cases h with
    | nil => exact absurd rfl hne
    | cons c cs => simp [alertIdentifier, hh]
  · intro hcase
    rcases hcase with hnone | hempty
    · simp [alertIdentifier, hnone]
    · simp [alertIdentifier, hempty]

/-- Witness for the amended C3 on one alert with a non-empty hash and one
with no hash. -/
theorem identifier_hash_fallback_spec_witness :
    alertIdentifier { hash := some "abc".toList, id := none, startTimeEpoch := none,
                      translation := none, audioUrl := none } = "abc".toList
      ∧ alertIdentifier { hash := none, id := some 1, startTimeEpoch := some 2,
                          translation := none, audioUrl := none }
          = pyOptInt (some 1) ++ '-' :: pyOptInt (some 2) := by
  constructor
  · exact (identifier_hash_fallback_spec _).1 _ rfl (by decide)
  · exact (identifier_hash_fallback_spec _).2 (Or.inl rfl)

/-- Claim C4: the guard of the manual trigger reads only the liveness of
the background task object, so in the state where the loop task is
running, not being cancelled, and a cycle body is currently in flight
(suspended at one of its awaits), the manual trigger is not rejected or
queued — it immediately runs the cycle function concurrently with the
in-flight cycle. -/
theorem manual_trigger_guard_ignores_inflight :
    (LoopState.mk true false true).cycleInFlight = true
      ∧ fetchGuard (LoopState.mk true false true) = true
      ∧ manualFetch (LoopState.mk true false true) = ManualOutcome.ranCycle := by decide

/-- Claim C6: the audio downloader returns absent for an absent URL, for
any URL not starting with http:// or https://, for an empty downloaded
body, and for every caught fetch failure class — never an error. -/
theorem download_audio_absent_cases (u v : List Char) (f : FetchOutcome)
    (hns : startsWithChars u "http://".toList = false
            ∧ startsWithChars u "https://".toList = false) :
    downloadAudio none f = none
      ∧ downloadAudio (some u) f = none
      ∧ downloadAudio (some v) (FetchOutcome.ok []) = none
      ∧ downloadAudio (some v) FetchOutcome.httpError = none
      ∧ downloadAudio (some v) FetchOutcome.timeout = none
      ∧ downloadAudio (some v) FetchOutcome.otherExn = none := by
  obtain ⟨h1, h2⟩ := hns
  refine ⟨rfl, ?_, ?_, ?_, ?_, ?_⟩
  · simp only [downloadAudio]
    rw [h1, h2]
    simp
  · unfold downloadAudio
    split <;> simp
  · unfold downloadAudio
    split <;> simp
  · unfold downloadAudio
    split <;> simp
  · unfold downloadAudio
    split <;> simp

/-- Witness for C6 at a non-HTTP URL and a valid URL with failing
fetches. -/
theorem download_audio_absent_cases_witness :
    downloadAudio (some "ftp://x".toList) (FetchOutcome.ok ['b']) = none
      ∧ downloadAudio (some "http://x".toList) FetchOutcome.timeout = none := by
  constructor
  · exact (download_audio_absent_cases "ftp://x".toList "http://x".toList
      (FetchOutcome.ok ['b']) ⟨by decide, by decide⟩).2.1
  · exact (download_audio_absent_cases "ftp://x".toList "http://x".toList
      FetchOutcome.timeout ⟨by decide, by decide⟩).2.2.2.2.1

/-- Claim C7 counterexample: a 2001-character description renders to
2003 characters (2000 kept plus the three-dot marker), so the rendered
description is not at most 2000 units long. -/
theorem render_description_over_cap_counterexample :
    2000 < (renderDescription (List.replicate 2001 'a')).length := by
  unfold renderDescription
  rw [List.length_append, List.length_take, List.length_replicate]
  norm_num [ellipsisMarker]

/-- Claim C7 as amended: descriptions of at most 2000 characters pass
through unchanged with no marker; longer ones are cut to their first
2000 characters with the three-dot ellipsis marker appended, so the
rendered description never exceeds 2003 characters. -/
theorem render_description_truncation (msg : List Char) :
    renderDescription msg
        = (if msg.length ≤ 2000 then msg else msg.take 2000 ++ ellipsisMarker)
      ∧ (renderDescription msg).length ≤ 2003 := by
  constructor
  · by_cases h : msg.length ≤ 2000
    · have hnot : ¬(2000 < msg.length) := by omega
      simp [renderDescription, h, hnot, List.take_of_length_le h]
    · have hlt : 2000 < msg.length := by omega
      simp [renderDescription, h, hlt]
  · unfold renderDescription
    by_cases h : 2000 < msg.length
    · rw [if_pos h, List.length_append, List.length_take]
      simp [ellipsisMarker]
    · rw [if_neg h, List.append_nil, List.length_take]
      omega

/-- Claim C1: a processed alert's identifier is added to the in-memory
delivered set and the enlarged set is handed to the persistence writer
exactly when at least one guild delivery succeeded; with zero successes
the set, the durable file and the save trace are all unchanged; and over
a whole cycle the persistence writer is called once per committed alert,
never batched. -/
theorem commit_iff_any_success (posted : Finset AlertId) (fileMain : Option (List Char))
    (fetched : List Alert) (a : Alert) (outs : Nat → List GuildOutcome) (io : Nat → Bool) :
    (alertIdentifier a ∉ posted → postedToAnyGuild (outs 0) = true →
        runCycle true posted fileMain [a] outs io
          = ⟨insert (alertIdentifier a) posted,
             (if io 0 then some (saveContent (insert (alertIdentifier a) posted)) else fileMain),
             [insert (alertIdentifier a) posted],
             [alertIdentifier a]⟩)
      ∧ ((∀ i, postedToAnyGuild (outs i) = false) →
          runCycle true posted fileMain fetched outs io
            = ⟨posted, fileMain, [], (filterNew posted fetched).map Prod.fst⟩)
      ∧ (runCycle true posted fileMain fetched outs io).saves.length
          = (((filterNew posted fetched).enum).filter
              (fun ip => postedToAnyGuild (outs ip.1))).length := by
  refine ⟨?_, ?_, ?_⟩
  · intro ha hs
    have hfil : filterNew posted [a] = [(alertIdentifier a, a)] := by
      simp [filterNew, ha]
    simp [runCycle, hfil, processAlert, hs]
  · intro h
    simp only [runCycle, if_pos]
    rw [foldl_process_noSuccess _ _ _ h]
    have hmap : ((filterNew posted fetched).enum).map (fun ip => ip.2.1)
        = (filterNew posted fetched).map Prod.fst := by
      rw [show (fun ip : Nat × (AlertId × Alert) => ip.2.1) = (Prod.fst ∘ Prod.snd) from rfl,
        ← List.map_map, List.enum_map_snd]
    simp [hmap]
  · simp only [runCycle, if_pos]
    rw [foldl_process_saves_len]
    simp

/-- Witness for C1: one hashless alert, one guild succeeding, a working
persistence write. -/
theorem commit_iff_any_success_witness :
    runCycle true ∅ none [sampleAlert] (fun _ => [GuildOutcome.success]) (fun _ => true)
      = ⟨insert (alertIdentifier sampleAlert) ∅,
         some (saveContent (insert (alertIdentifier sampleAlert) ∅)),
         [insert (alertIdentifier sampleAlert) ∅],
         [alertIdentifier sampleAlert]⟩ := by
  have h := (commit_iff_any_success ∅ none [sampleAlert] sampleAlert
    (fun _ => [GuildOutcome.success]) (fun _ => true)).1 (by decide) (by decide)
  simpa using h

/-- Claim C5: a full save writes the sorted newline-terminated
identifiers to the temporary file and renames it over the final path, so
after a successful save the durable file holds exactly the sorted
identifiers one per line (splitting it at newlines recovers the sorted
list), while stopping before the rename — including after a partial
temporary-file write of arbitrary content — leaves the durable file
exactly as it was. -/
theorem save_atomic_sorted (fs : FS) (s : Finset AlertId)
    (hnl : ∀ id ∈ s, '\n' ∉ id) :
    (runFS fs (saveScript s)).main = some (saveContent s)
      ∧ (runFS fs []).main = fs.main
      ∧ (∀ c, (runFS fs [SaveFsStep.writeTemp c]).main = fs.main)
      ∧ splitNL (saveContent s) = s.sort (· ≤ ·) ++ [[]]
      ∧ List.Sorted (· ≤ ·) (s.sort (· ≤ ·)) := by
  refine ⟨rfl, rfl, fun c => rfl, ?_, Finset.sort_sorted _ _⟩
  unfold saveContent
  exact splitNL_flatten_newlines _ (fun id m => hnl id ((Finset.mem_sort _).mp m))

/-- Witness for C5 on a one-identifier set over a pre-existing file. -/
theorem save_atomic_sorted_witness :
    (runFS ⟨some ['x'], none⟩ (saveScript {['a']})).main = some (saveContent {['a']})
      ∧ (runFS ⟨some ['x'], none⟩ [SaveFsStep.writeTemp ['g']]).main = some ['x'] := by
  constructor
  · exact (save_atomic_sorted ⟨some ['x'], none⟩ {['a']} (by decide)).1
  · exact (save_atomic_sorted ⟨some ['x'], none⟩ {['a']} (by decide)).2.2.1 ['g']

/-- Claim C8: the dedup filter consults only the delivered set as it
stood before the batch was processed, so two alerts of one fetched batch
sharing an identifier that is not yet in the set both pass the filter
and both go through fan-out processing in that cycle. -/
theorem batch_duplicates_both_processed (posted : Finset AlertId)
    (fileMain : Option (List Char)) (a b : Alert) (outs : Nat → List GuildOutcome)
    (io : Nat → Bool) (hid : alertIdentifier a = alertIdentifier b)
    (hnot : alertIdentifier a ∉ posted) :
    filterNew posted [a, b] = [(alertIdentifier a, a), (alertIdentifier b, b)]
      ∧ (runCycle true posted fileMain [a, b] outs io).fanOuts
          = [alertIdentifier a, alertIdentifier b] := by
  have hb : alertIdentifier b ∉ posted := hid ▸ hnot
  have hfil : filterNew posted [a, b] = [(alertIdentifier a, a), (alertIdentifier b, b)] := by
    simp [filterNew, hnot, hb]
  refine ⟨hfil, ?_⟩
  simp only [runCycle, if_pos, hfil]
  rw [foldl_process_fanOuts]
  simp [List.enum, List.enumFrom]

/-- Witness for C8: the same alert listed twice in one batch. -/
theorem batch_duplicates_both_processed_witness :
    (runCycle true ∅ none [sampleAlert, sampleAlert] (fun _ => []) (fun _ => true)).fanOuts
      = [alertIdentifier sampleAlert, alertIdentifier sampleAlert] :=
  (batch_duplicates_both_processed ∅ none sampleAlert sampleAlert
    (fun _ => []) (fun _ => true) rfl (by decide)).2

/-- Claim C9: when the durable write fails after a successful delivery,
the failure is swallowed — the identifier is still in the in-memory set
and the save was still attempted, but the durable file is unchanged —
and the dedup filter of any later cycle in the same run drops that
identifier, suppressing redelivery. -/
theorem save_failure_swallowed (acc : CycleResult) (p : AlertId × Alert)
    (o : List GuildOutcome) (a : Alert) (hsucc : postedToAnyGuild o = true)
    (hid : alertIdentifier a = p.1) :
    p.1 ∈ (processAlert p o false acc).posted
      ∧ (processAlert p o false acc).fileMain = acc.fileMain
      ∧ (processAlert p o false acc).saves = acc.saves ++ [insert p.1 acc.posted]
      ∧ filterNew (processAlert p o false acc).posted [a] = [] := by
  refine ⟨?_, ?_, ?_, ?_⟩
  · simp [processAlert, hsucc]
  · simp [processAlert, hsucc]
  · simp [processAlert, hsucc]
  · simp [processAlert, hsucc, filterNew, hid]

/-- Witness for C9 at one alert, one successful guild, a failing write. -/
theorem save_failure_swallowed_witness :
    (alertIdentifier sampleAlert)
        ∈ (processAlert (alertIdentifier sampleAlert, sampleAlert)
            [GuildOutcome.success] false ⟨∅, none, [], []⟩).posted
      ∧ (processAlert (alertIdentifier sampleAlert, sampleAlert)
          [GuildOutcome.success] false ⟨∅, none, [], []⟩).fileMain = none := by
  constructor
  · exact (save_failure_swallowed ⟨∅, none, [], []⟩ (alertIdentifier sampleAlert, sampleAlert)
      [GuildOutcome.success] sampleAlert (by decide) rfl).1
  · exact (save_failure_swallowed ⟨∅, none, [], []⟩ (alertIdentifier sampleAlert, sampleAlert)
      [GuildOutcome.success] sampleAlert (by decide) rfl).2.1

/-- Claim C10: loading the file produced by saving a set of non-empty,
newline-free identifiers with no surrounding whitespace returns exactly
that set; and on any newline-terminated line list, loading strips each
line's surrounding whitespace and silently skips lines that become
blank. -/
theorem save_load_round_trip (s : Finset AlertId) (lines : List (List Char))
    (hs : ∀ id ∈ s, id ≠ [] ∧ '\n' ∉ id ∧ stripWs id = id)
    (hl : ∀ l ∈ lines, '\n' ∉ l) :
    loadContent (saveContent s) = s
      ∧ loadContent ((lines.map (fun l => l ++ ['\n'])).flatten)
          = ((lines.map stripWs).filter (fun l => l ≠ [])).toFinset := by
  refine ⟨?_, loadContent_flatten lines hl⟩
  unfold saveContent
  rw [loadContent_flatten _ (fun id m => (hs id ((Finset.mem_sort _).mp m)).2.1)]
  have hmap : (s.sort (· ≤ ·)).map stripWs = s.sort (· ≤ ·) := by
    have h1 : (s.sort (· ≤ ·)).map stripWs = (s.sort (· ≤ ·)).map (fun id => id) :=
      List.map_congr_left (fun id m => (hs id ((Finset.mem_sort (· ≤ ·)).mp m)).2.2)
    simpa using h1
  rw [hmap]
  have hfil : (s.sort (· ≤ ·)).filter (fun l => l ≠ []) = s.sort (· ≤ ·) := by
    rw [List.filter_eq_self]
    intro id m
    simpa using (hs id ((Finset.mem_sort _).mp m)).1
  rw [hfil, Finset.sort_toFinset]

/-- Witness for C10 on a one-identifier set and on lines with whitespace
and a blank. -/
theorem save_load_round_trip_witness :
    loadContent (saveContent ({['a']} : Finset AlertId)) = {['a']}
      ∧ loadContent (([[' ', 'b'], []].map (fun l => l ++ ['\n'])).flatten)
          = (([[' ', 'b'], []].map stripWs).filter (fun l => l ≠ [])).toFinset := by
  constructor
  · exact (save_load_round_trip {['a']} [[' ', 'b'], []] (by decide) (by decide)).1
  · exact (save_load_round_trip {['a']} [[' ', 'b'], []] (by decide) (by decide)).2

end EASBot
